import Mathlib

/-!
# abbas-ledger: the ledger component `src/App.jsx`

A shallow embedding of the logic of `src/App.jsx`:

* the JavaScript Number arithmetic the aggregator runs on (`+`, `-`, `parseFloat`),
* the `stats` reducer, `currentBalance` and the net debt expression,
* the `onSnapshot` callback (document mapping and in-memory sort),
* `addTransaction`, `deleteTransaction` and the two effects as a state machine.
-/

set_option exponentiation.threshold 4096

namespace Ledger

/-! ## JavaScript Numbers

A JavaScript Number is an IEEE-754 binary64 value.  Every finite binary64 value is an
integer multiple of `2^-1074` (the smallest subnormal), so a finite value is stored as
that integer: `fin n` denotes `n * 2^-1074`.  `fin 0` is `+0`; `-0` has its own
constructor. -/

/-- A JavaScript Number (IEEE-754 binary64). `fin n` is the finite value `n * 2^-1074`.
The operations below return only values with a 53-bit significand; the type itself also
holds other integers, and the statements that quantify over it hold for those as well. -/
inductive JSNumber where
  | nan
  | posInf
  | negInf
  | negZero
  | fin (n : Int)
  deriving DecidableEq, Repr

namespace JSNumber

/-- Number of `2^-1074` units in `1.0`. -/
def one : Nat := 2 ^ 1074

/-- First magnitude (in units) that no longer fits: `2^1024`, i.e. `2^2098` units. -/
def overflowBound : Nat := 2 ^ 2098

/-- Position of the leading one bit of `u` (the floor of its base-2 logarithm), found
by binary search over twelve bits; `0` for `u = 0`.  It saturates at `4095`, far above
`overflowBound`, where every result is an infinity. -/
def leadingBit (u : Nat) : Nat :=
  [2048, 1024, 512, 256, 128, 64, 32, 16, 8, 4, 2, 1].foldl
    (fun acc j => if 2 ^ (acc + j) ≤ u then acc + j else acc) 0

/-- Round the non-negative rational `a / b` (in units of `2^-1074`) to the nearest value
with a 53-bit significand, ties to even.  The result is again in units; it can be
`overflowBound` or more, which the callers turn into an infinity. -/
def roundUnits (a b : Nat) : Nat :=
  let k := leadingBit (a / b) - 52
  let d := b * 2 ^ k
  let q := a / d
  let r := a % d
  if 2 * r < d then q * 2 ^ k
  else if d < 2 * r then (q + 1) * 2 ^ k
  else if q % 2 = 0 then q * 2 ^ k
  else (q + 1) * 2 ^ k

/-- The Number nearest to `± a / b` units (`a / b` not zero). -/
def ofRatio (neg : Bool) (a b : Nat) : JSNumber :=
  let m := roundUnits a b
  if overflowBound ≤ m then (if neg then negInf else posInf)
  else if m = 0 then (if neg then negZero else fin 0)
  else fin (if neg then -(m : Int) else (m : Int))

/-- The Number nearest to an exact sum `z` (in units) of two finite Numbers; an exact
zero sum is `+0` under round-to-nearest. -/
def ofSum (z : Int) : JSNumber :=
  if z = 0 then fin 0 else ofRatio (decide (z < 0)) z.natAbs 1

/-- JavaScript `x + y` on Numbers. -/
def add : JSNumber → JSNumber → JSNumber
  | nan, _ => nan
  | _, nan => nan
  | posInf, negInf => nan
  | negInf, posInf => nan
  | posInf, _ => posInf
  | _, posInf => posInf
  | negInf, _ => negInf
  | _, negInf => negInf
  | negZero, negZero => negZero
  | negZero, fin n => fin n
  | fin n, negZero => fin n
  | fin a, fin b => ofSum (a + b)

/-- JavaScript unary `-x`. -/
def neg : JSNumber → JSNumber
  | nan => nan
  | posInf => negInf
  | negInf => posInf
  | negZero => fin 0
  | fin n => if n = 0 then negZero else fin (-n)

/-- JavaScript `x - y` on Numbers. -/
def sub (x y : JSNumber) : JSNumber := add x (neg y)

/-- The Number of a natural number `v` (exact below `2^53`). -/
def ofNat (v : Nat) : JSNumber := ofSum ((v * one : Nat) : Int)

end JSNumber

/-! ## `parseFloat` -/

/-- A JavaScript value as far as `parseFloat` tells values apart: `undefined` (an absent
field), a Number, or a String. -/
inductive JSValue where
  | undefined
  | num (x : JSNumber)
  | str (s : String)
  deriving DecidableEq, Repr

/-- ECMAScript `StrWhiteSpaceChar` (WhiteSpace and LineTerminator code points). -/
def isStrWhiteSpace (c : Char) : Bool :=
  let n := c.toNat
  n = 0x09 || n = 0x0A || n = 0x0B || n = 0x0C || n = 0x0D || n = 0x20 || n = 0xA0 ||
  n = 0x1680 || (0x2000 ≤ n && n ≤ 0x200A) || n = 0x2028 || n = 0x2029 || n = 0x202F ||
  n = 0x205F || n = 0x3000 || n = 0xFEFF

/-- Longest run of `DecimalDigits` at the head of `cs`, accumulated onto `value`:
the number of digits read, the decimal value, and the rest of the input. -/
def takeDigits : List Char → Nat → Nat → Nat × Nat × List Char
  | [], count, value => (count, value, [])
  | c :: cs, count, value =>
    if 48 ≤ c.toNat ∧ c.toNat ≤ 57 then
      takeDigits cs (count + 1) (value * 10 + (c.toNat - 48))
    else (count, value, c :: cs)

/-- An optional `ExponentPart` at the head of the input: its signed value, or `0` when the
input does not start with a complete exponent part. -/
def exponentPart : List Char → Int
  | e :: cs =>
    if e = 'e' ∨ e = 'E' then
      match cs with
      | '-' :: ds => match takeDigits ds 0 0 with
        | (0, _, _) => 0
        | (_, v, _) => -(v : Int)
      | '+' :: ds => match takeDigits ds 0 0 with
        | (0, _, _) => 0
        | (_, v, _) => (v : Int)
      | ds => match takeDigits ds 0 0 with
        | (0, _, _) => 0
        | (_, v, _) => (v : Int)
    else 0
  | [] => 0

/-- The Number of the mathematical value `mant * 10 ^ exp10` (`RoundMVResult`, with the
exact nearest Number). -/
def ofDecimal (mant : Nat) (exp10 : Int) : JSNumber :=
  if mant = 0 then JSNumber.fin 0
  else if 0 ≤ exp10 then JSNumber.ofRatio false (mant * 10 ^ exp10.toNat * JSNumber.one) 1
  else JSNumber.ofRatio false (mant * JSNumber.one) (10 ^ (-exp10).toNat)

/-- The value of the longest prefix that is a `StrUnsignedDecimalLiteral`, if any. -/
def parseUnsigned (cs : List Char) : Option JSNumber :=
  if "Infinity".data.isPrefixOf cs then some JSNumber.posInf
  else
    match takeDigits cs 0 0 with
    | (intCount, intValue, '.' :: rest) =>
      match takeDigits rest 0 intValue with
      | (fracCount, value, rest2) =>
        if intCount = 0 ∧ fracCount = 0 then none
        else some (ofDecimal value (exponentPart rest2 - fracCount))
    | (intCount, intValue, rest) =>
      if intCount = 0 then none else some (ofDecimal intValue (exponentPart rest))

/-- ECMAScript `parseFloat` applied to a String: skip leading white space, read the
longest prefix that is a `StrDecimalLiteral`, `NaN` when there is none. -/
def parseFloatString (s : String) : JSNumber :=
  match s.data.dropWhile isStrWhiteSpace with
  | '-' :: cs => match parseUnsigned cs with
    | some x => JSNumber.neg x
    | none => JSNumber.nan
  | '+' :: cs => (parseUnsigned cs).getD JSNumber.nan
  | cs => (parseUnsigned cs).getD JSNumber.nan

/-- JavaScript `parseFloat(v)`: `v` is first converted to a String.  `"undefined"` parses to
`NaN`.  For a Number the conversion prints the shortest decimal that reads back as the
same Number (`NaN`, `Infinity` and `-Infinity` print as such), so the value is returned
unchanged, except that `-0` prints as `"0"` and comes back as `+0`. -/
def parseFloat : JSValue → JSNumber
  | JSValue.undefined => JSNumber.nan
  | JSValue.num JSNumber.negZero => JSNumber.fin 0
  | JSValue.num x => x
  | JSValue.str s => parseFloatString s

/-! ## Data model -/

/-- A Firestore `Timestamp`. -/
structure Timestamp where
  seconds : Int
  nanoseconds : Nat
  deriving DecidableEq, Repr

/-- A record of the `transactions` state: the fields of a stored document and its `id`.
`createdAt` is `none` when the field is absent or `null` (a server timestamp that has not
been resolved yet). -/
structure Transaction where
  id : String
  amount : JSValue
  type : String
  label : String
  date : String
  timestamp : String
  createdAt : Option Timestamp
  deriving DecidableEq, Repr

/-- The accumulator of the `stats` reduce. -/
structure Stats where
  income : JSNumber
  expense : JSNumber
  savings : JSNumber
  owedToMe : JSNumber
  iOwe : JSNumber
  deriving DecidableEq, Repr

/-! ## Calculations (`App.jsx` lines 95-105, 156-157) -/

/-- The callback of `transactions.reduce` (lines 95-102). -/
def reducer (acc : Stats) (curr : Transaction) : Stats :=
  let val := parseFloat curr.amount
  let acc := if curr.type = "income" then { acc with income := acc.income.add val } else acc
  let acc := if curr.type = "expense" then { acc with expense := acc.expense.add val } else acc
  let acc := if curr.type = "savings" then { acc with savings := acc.savings.add val } else acc
  let acc := if curr.type = "lend" then { acc with owedToMe := acc.owedToMe.add val } else acc
  let acc := if curr.type = "owe" then { acc with iOwe := acc.iOwe.add val } else acc
  acc

/-- The initial accumulator `{ income: 0, expense: 0, savings: 0, owedToMe: 0, iOwe: 0 }`. -/
def initialStats : Stats :=
  { income := JSNumber.fin 0, expense := JSNumber.fin 0, savings := JSNumber.fin 0,
    owedToMe := JSNumber.fin 0, iOwe := JSNumber.fin 0 }

/-- `stats` (lines 95-103). -/
def stats (transactions : List Transaction) : Stats :=
  transactions.foldl reducer initialStats

/-- `currentBalance` (line 105): `stats.income - stats.expense - stats.savings`. -/
def currentBalance (transactions : List Transaction) : JSNumber :=
  ((stats transactions).income.sub (stats transactions).expense).sub (stats transactions).savings

/-- The net debt shown (lines 156-157): `stats.owedToMe - stats.iOwe`. -/
def netDebt (transactions : List Transaction) : JSNumber :=
  (stats transactions).owedToMe.sub (stats transactions).iOwe

/-! ## The snapshot callback (lines 46-54) -/

/-- A document of a snapshot: `doc.id` and the fields of `doc.data()`.  `dataId` is the
value of a field named `id` inside `doc.data()`, when the document stores one
(`addTransaction` writes none). -/
structure RemoteDoc where
  id : String
  dataId : Option String
  amount : JSValue
  type : String
  label : String
  date : String
  timestamp : String
  createdAt : Option Timestamp
  deriving DecidableEq, Repr

/-- The mapping `doc => ({ id: doc.id, ...doc.data() })` (lines 47-50): the spread comes
after `id: doc.id`, so a field named `id` in the data replaces `doc.id`. -/
def toRecord (doc : RemoteDoc) : Transaction :=
  { id := match doc.dataId with
          | some stored => stored
          | none => doc.id,
    amount := doc.amount, type := doc.type, label := doc.label,
    date := doc.date, timestamp := doc.timestamp, createdAt := doc.createdAt }

/-- The expression `x.createdAt?.seconds || 0` (line 52). -/
def secondsOrZero (x : Transaction) : Int :=
  match x.createdAt with
  | none => 0
  | some ts => if ts.seconds = 0 then 0 else ts.seconds

/-- The comparator `(a, b) => (b.createdAt?.seconds || 0) - (a.createdAt?.seconds || 0)`
(line 52).  Both operands are whole numbers of seconds, on which the subtraction is exact. -/
def compareCreated (a b : Transaction) : Int :=
  secondsOrZero b - secondsOrZero a

/-- `Array.prototype.sort(cmp)`: a stable sort that puts `a` before `b` whenever
`cmp(a, b) < 0` and keeps the given order where `cmp(a, b) = 0`; computed by
insertion from the right. -/
def arraySort {α : Type} (cmp : α → α → Int) (l : List α) : List α :=
  l.insertionSort (fun a b => cmp a b ≤ 0)

/-- The list handed to `setTransactions` by the snapshot callback (lines 47-53). -/
def publish (docs : List RemoteDoc) : List Transaction :=
  arraySort compareCreated (docs.map toRecord)

/-- The creation instant of a Firestore timestamp, in nanoseconds. -/
def Timestamp.instant (ts : Timestamp) : Int :=
  ts.seconds * 1000000000 + ts.nanoseconds

/-! ## Component state, handlers and effects (lines 16-92) -/

/-- The signed-in user, as far as the component reads it (`user.uid`). -/
structure User where
  uid : String
  deriving DecidableEq, Repr

/-- The object passed to `addDoc` (lines 69-76); `createdAt` is always the
`serverTimestamp()` sentinel and is not stored here. -/
structure NewDoc where
  amount : JSNumber
  type : String
  label : String
  date : String
  timestamp : String
  deriving DecidableEq, Repr

/-- A call to the remote store, on the collection
`artifacts/{APP_ID}/users/{uid}/transactions`. -/
inductive RemoteCall where
  | addDoc (uid : String) (doc : NewDoc)
  | deleteDoc (uid : String) (id : String)
  deriving DecidableEq, Repr

/-- The `useState` cells of `App` (lines 16-24) and the live `onSnapshot` listener
(`subscription` holds the uid whose collection is listened to). -/
structure AppState where
  user : Option User
  transactions : List Transaction
  loading : Bool
  isInputOpen : Bool
  inputType : String
  amount : String
  label : String
  subscription : Option String
  deriving DecidableEq, Repr

/-- The state at mount (lines 16-24). -/
def initialState : AppState :=
  { user := none, transactions := [], loading := true, isInputOpen := false,
    inputType := "expense", amount := "", label := "", subscription := none }

/-- What a handler did: the resulting state, the remote calls it issued, the lines it
sent to `console.error`, and how its promise settled (`error` is a rejection that
reaches the caller). -/
structure Outcome where
  state : AppState
  calls : List RemoteCall
  logged : List String
  result : Except String Unit

/-- `addTransaction` (lines 64-83).  `date` and `timestamp` are the two strings formatted
from `new Date()`; `remote` is the answer of the store to a call (`error` is a rejected
promise). -/
def addTransaction (s : AppState) (date timestamp : String)
    (remote : RemoteCall → Except String Unit) : Outcome :=
  if s.amount = "" ∨ s.label = "" ∨ s.user = none then
    { state := s, calls := [], logged := [], result := Except.ok () }
  else
    match s.user with
    | none => { state := s, calls := [], logged := [], result := Except.ok () }
    | some user =>
      let call := RemoteCall.addDoc user.uid
        { amount := parseFloat (JSValue.str s.amount), type := s.inputType, label := s.label,
          date := date, timestamp := timestamp }
      match remote call with
      | Except.ok _ =>
        { state := { s with amount := "", label := "", isInputOpen := false },
          calls := [call], logged := [], result := Except.ok () }
      | Except.error err =>
        { state := s, calls := [call], logged := ["Error adding doc: " ++ err],
          result := Except.ok () }

/-- `deleteTransaction` (lines 85-92).  `confirmed` is the answer `window.confirm` gives
when it is asked. -/
def deleteTransaction (s : AppState) (id : String) (confirmed : Bool)
    (remote : RemoteCall → Except String Unit) : Outcome :=
  if s.user = none ∨ confirmed = false then
    { state := s, calls := [], logged := [], result := Except.ok () }
  else
    match s.user with
    | none => { state := s, calls := [], logged := [], result := Except.ok () }
    | some user =>
      let call := RemoteCall.deleteDoc user.uid id
      match remote call with
      | Except.ok _ => { state := s, calls := [call], logged := [], result := Except.ok () }
      | Except.error err =>
        { state := s, calls := [call], logged := ["Error deleting: " ++ err],
          result := Except.ok () }

/-- What can happen to the mounted component. -/
inductive Event where
  | authStateChanged (currentUser : Option User)
  | snapshot (docs : List RemoteDoc)
  | snapshotError (error : String)
  | quickButton (type : String)
  | changeAmount (value : String)
  | changeLabel (value : String)
  | cancel
  | submit (date timestamp : String) (remote : RemoteCall → Except String Unit)
  | delete (id : String) (confirmed : Bool) (remote : RemoteCall → Except String Unit)

/-- The `onAuthStateChanged` callback (lines 33-36) followed by the effect on `[user]`
(lines 40-61): when `user` changed, the cleanup of the previous run unsubscribes, and the
new run subscribes only if there is a user. -/
def onAuthStateChanged (s : AppState) (currentUser : Option User) : AppState :=
  let s1 := { s with user := currentUser,
                     loading := if currentUser = none then false else s.loading }
  if currentUser = s.user then s1
  else
    match currentUser with
    | none => { s1 with subscription := none }
    | some user => { s1 with subscription := some user.uid }

/-- One event. Snapshot callbacks fire only while the listener is attached. -/
def step (s : AppState) : Event → AppState
  | Event.authStateChanged currentUser => onAuthStateChanged s currentUser
  | Event.snapshot docs =>
    if s.subscription = none then s
    else { s with transactions := publish docs, loading := false }
  | Event.snapshotError _ =>
    if s.subscription = none then s else { s with loading := false }
  | Event.quickButton type => { s with inputType := type, isInputOpen := true }
  | Event.changeAmount value => { s with amount := value }
  | Event.changeLabel value => { s with label := value }
  | Event.cancel => { s with isInputOpen := false }
  | Event.submit date timestamp remote => (addTransaction s date timestamp remote).state
  | Event.delete id confirmed remote => (deleteTransaction s id confirmed remote).state

/-- The state after a sequence of events from mount. -/
def run (events : List Event) : AppState :=
  events.foldl step initialState

/-- The states the component can be in. -/
def Reachable (s : AppState) : Prop :=
  ∃ events, run events = s

/-! ## Vocabulary of the properties -/

/-- The sum of a list of Numbers as JavaScript computes it: `+` from `0`, left to right. -/
def jsSum (xs : List JSNumber) : JSNumber :=
  xs.foldl JSNumber.add (JSNumber.fin 0)

/-- The amounts (`parseFloat(curr.amount)`) of the transactions of one category, in
sequence order. -/
def amountsOf (category : String) (seq : List Transaction) : List JSNumber :=
  (seq.filter (fun t => t.type = category)).map (fun t => parseFloat t.amount)

/-- The five categories the reducer knows. -/
def knownCategories : List String :=
  ["income", "expense", "savings", "lend", "owe"]

/-- The running total a category feeds: income, expense, savings, lend (`owedToMe`) and
owe (`iOwe`); `none` for any other category. -/
def Stats.totalOf (st : Stats) (category : String) : Option JSNumber :=
  if category = "income" then some st.income
  else if category = "expense" then some st.expense
  else if category = "savings" then some st.savings
  else if category = "lend" then some st.owedToMe
  else if category = "owe" then some st.iOwe
  else none

/-- The amounts of `seq` add up without rounding: each is `units t` times the power of
two `2^s * 2^-1074` (whole numbers for `s = 1074`), that power is at most the largest
spacing of Numbers (`s ≤ 2045`), and all units together stay below `2^53`. -/
def ExactAmounts (s : Nat) (units : Transaction → Nat) (seq : List Transaction) : Prop :=
  s ≤ 2045 ∧
  (∀ t ∈ seq, parseFloat t.amount = JSNumber.fin ((units t * 2 ^ s : Nat) : Int)) ∧
  (seq.map units).sum < 2 ^ 53

instance (s : Nat) (units : Transaction → Nat) (seq : List Transaction) :
    Decidable (ExactAmounts s units seq) := by
  unfold ExactAmounts; infer_instance

/-- The whole number of a Number that is one, `0` otherwise. -/
def wholeUnits (t : Transaction) : Nat :=
  match parseFloat t.amount with
  | JSNumber.fin n => n.toNat / 2 ^ 1074
  | _ => 0

/-- A Number is a positive magnitude. -/
def JSNumber.isPositive : JSNumber → Bool
  | JSNumber.posInf => true
  | JSNumber.fin n => decide (0 < n)
  | _ => false

/-- The published list is in descending order of creation instant (among the records
that carry one). -/
def DescendingByInstant (l : List Transaction) : Prop :=
  l.Pairwise (fun x y => ∀ tx ty, x.createdAt = some tx → y.createdAt = some ty →
    ty.instant ≤ tx.instant)

/-- The record has no creation second to compare: `createdAt` is missing or `null`, or its
`seconds` is `0`. -/
def noSeconds (x : Transaction) : Bool :=
  match x.createdAt with
  | none => true
  | some ts => decide (ts.seconds = 0)

/-- The record carries a `createdAt` with positive `seconds`. -/
def positiveSeconds (x : Transaction) : Bool :=
  match x.createdAt with
  | none => false
  | some ts => decide (0 < ts.seconds)

/-! ## Example data -/

/-- A record as `addTransaction` stores it: the amount is `parseFloat` of the input. -/
def entry (type amount : String) : Transaction :=
  { id := "", amount := JSValue.num (parseFloat (JSValue.str amount)), type := type,
    label := "", date := "", timestamp := "", createdAt := none }

/-- The scenario list `[{income,100},{expense,40},{savings,10},{lend,20},{owe,5}]`. -/
def scenario : List Transaction :=
  [entry "income" "100", entry "expense" "40", entry "savings" "10", entry "lend" "20",
   entry "owe" "5"]

/-- Three incomes of 0.1, 0.2 and 0.3. -/
def tenths : List Transaction :=
  [entry "income" "0.1", entry "income" "0.2", entry "income" "0.3"]

/-- The same three incomes in the opposite order. -/
def tenthsReversed : List Transaction :=
  [entry "income" "0.3", entry "income" "0.2", entry "income" "0.1"]

/-- Three whole incomes and one expense. -/
def wholeLedger : List Transaction :=
  [entry "income" "1", entry "expense" "7", entry "income" "2", entry "income" "3"]

/-- A permutation of `wholeLedger`. -/
def wholeLedgerShuffled : List Transaction :=
  [entry "income" "3", entry "income" "1", entry "expense" "7", entry "income" "2"]

/-- A document created at `seconds`, `nanoseconds`. -/
def docAt (id : String) (seconds : Int) (nanoseconds : Nat) : RemoteDoc :=
  { id := id, dataId := none, amount := JSValue.num (JSNumber.ofNat 1), type := "expense",
    label := "x", date := "", timestamp := "",
    createdAt := some { seconds := seconds, nanoseconds := nanoseconds } }

/-- Two documents created within the same second, the earlier one first. -/
def sameSecondDocs : List RemoteDoc :=
  [docAt "a" 100 0, docAt "b" 100 500000000]

/-- A signed-in state with the form filled with a negative amount. -/
def negativeInput : AppState :=
  { initialState with user := some { uid := "u" }, subscription := some "u",
                      isInputOpen := true, amount := "-5", label := "x" }

/-- A signed-in state with the form filled in. -/
def filledInput : AppState :=
  { initialState with user := some { uid := "u" }, subscription := some "u",
                      isInputOpen := true, amount := "12.50", label := "Lunch" }

/-- A store that accepts every call. -/
def acceptAll : RemoteCall → Except String Unit :=
  fun _ => Except.ok ()

/-- A store that rejects every call. -/
def rejectAll : RemoteCall → Except String Unit :=
  fun _ => Except.error "unavailable"

/-- Sign in, receive a snapshot of two documents, lose the session. -/
def sessionLost : List Event :=
  [Event.authStateChanged (some { uid := "u" }), Event.snapshot sameSecondDocs,
   Event.authStateChanged none]

/-! ## The reducer, field by field -/

theorem reducer_income (acc : Stats) (t : Transaction) :
    (reducer acc t).income =
      if t.type = "income" then acc.income.add (parseFloat t.amount) else acc.income := by
  unfold reducer
  by_cases h1 : t.type = "income" <;> by_cases h2 : t.type = "expense" <;>
    by_cases h3 : t.type = "savings" <;> by_cases h4 : t.type = "lend" <;>
    by_cases h5 : t.type = "owe" <;> simp [h1, h2, h3, h4, h5]

theorem reducer_expense (acc : Stats) (t : Transaction) :
    (reducer acc t).expense =
      if t.type = "expense" then acc.expense.add (parseFloat t.amount) else acc.expense := by
  unfold reducer
  by_cases h1 : t.type = "income" <;> by_cases h2 : t.type = "expense" <;>
    by_cases h3 : t.type = "savings" <;> by_cases h4 : t.type = "lend" <;>
    by_cases h5 : t.type = "owe" <;> simp [h1, h2, h3, h4, h5]

theorem reducer_savings (acc : Stats) (t : Transaction) :
    (reducer acc t).savings =
      if t.type = "savings" then acc.savings.add (parseFloat t.amount) else acc.savings := by
  unfold reducer
  by_cases h1 : t.type = "income" <;> by_cases h2 : t.type = "expense" <;>
    by_cases h3 : t.type = "savings" <;> by_cases h4 : t.type = "lend" <;>
    by_cases h5 : t.type = "owe" <;> simp [h1, h2, h3, h4, h5]

theorem reducer_owedToMe (acc : Stats) (t : Transaction) :
    (reducer acc t).owedToMe =
      if t.type = "lend" then acc.owedToMe.add (parseFloat t.amount) else acc.owedToMe := by
  unfold reducer
  by_cases h1 : t.type = "income" <;> by_cases h2 : t.type = "expense" <;>
    by_cases h3 : t.type = "savings" <;> by_cases h4 : t.type = "lend" <;>
    by_cases h5 : t.type = "owe" <;> simp [h1, h2, h3, h4, h5]

theorem reducer_iOwe (acc : Stats) (t : Transaction) :
    (reducer acc t).iOwe =
      if t.type = "owe" then acc.iOwe.add (parseFloat t.amount) else acc.iOwe := by
  unfold reducer
  by_cases h1 : t.type = "income" <;> by_cases h2 : t.type = "expense" <;>
    by_cases h3 : t.type = "savings" <;> by_cases h4 : t.type = "lend" <;>
    by_cases h5 : t.type = "owe" <;> simp [h1, h2, h3, h4, h5]

/-- A field that the reducer feeds from one category only is, after the whole fold, the
left-to-right sum of that category's amounts onto the field's starting value. -/
theorem foldl_reducer_field (field : Stats → JSNumber) (category : String)
    (hstep : ∀ acc t, field (reducer acc t) =
      if t.type = category then (field acc).add (parseFloat t.amount) else field acc)
    (seq : List Transaction) (acc : Stats) :
    field (seq.foldl reducer acc) = (amountsOf category seq).foldl JSNumber.add (field acc) := by
  induction seq generalizing acc with
  | nil => rfl
  | cons t rest ih =>
    rw [List.foldl_cons, ih, hstep]
    by_cases h : t.type = category
    · simp [amountsOf, h]
    · simp [amountsOf, h]

theorem stats_income (seq : List Transaction) :
    (stats seq).income = jsSum (amountsOf "income" seq) :=
  foldl_reducer_field Stats.income "income" reducer_income seq initialStats

theorem stats_expense (seq : List Transaction) :
    (stats seq).expense = jsSum (amountsOf "expense" seq) :=
  foldl_reducer_field Stats.expense "expense" reducer_expense seq initialStats

theorem stats_savings (seq : List Transaction) :
    (stats seq).savings = jsSum (amountsOf "savings" seq) :=
  foldl_reducer_field Stats.savings "savings" reducer_savings seq initialStats

theorem stats_owedToMe (seq : List Transaction) :
    (stats seq).owedToMe = jsSum (amountsOf "lend" seq) :=
  foldl_reducer_field Stats.owedToMe "lend" reducer_owedToMe seq initialStats

theorem stats_iOwe (seq : List Transaction) :
    (stats seq).iOwe = jsSum (amountsOf "owe" seq) :=
  foldl_reducer_field Stats.iOwe "owe" reducer_iOwe seq initialStats

/-- The statistics are determined by the five per-category sums. -/
theorem stats_eq_sums (seq : List Transaction) :
    stats seq =
      { income := jsSum (amountsOf "income" seq), expense := jsSum (amountsOf "expense" seq),
        savings := jsSum (amountsOf "savings" seq), owedToMe := jsSum (amountsOf "lend" seq),
        iOwe := jsSum (amountsOf "owe" seq) } := by
  rw [← stats_income, ← stats_expense, ← stats_savings, ← stats_owedToMe, ← stats_iOwe]

theorem amountsOf_filter_known (category : String) (hc : category ∈ knownCategories)
    (seq : List Transaction) :
    amountsOf category (seq.filter (fun t => decide (t.type ∈ knownCategories))) =
      amountsOf category seq := by
  unfold amountsOf
  rw [List.filter_filter]
  congr 1
  apply List.filter_congr
  intro t _
  by_cases h : t.type = category
  · simp [h, hc]
  · simp [h]

/-! ## Sums that need no rounding -/

theorem foldl_leadingBit_le (u : Nat) (js : List Nat) (acc : Nat) (h : 2 ^ acc ≤ u) :
    2 ^ (js.foldl (fun acc j => if 2 ^ (acc + j) ≤ u then acc + j else acc) acc) ≤ u := by
  induction js generalizing acc with
  | nil => simpa using h
  | cons j rest ih =>
    rw [List.foldl_cons]
    by_cases hj : 2 ^ (acc + j) ≤ u
    · rw [if_pos hj]; exact ih _ hj
    · rw [if_neg hj]; exact ih _ h

theorem two_pow_leadingBit_le (u : Nat) (hu : 0 < u) : 2 ^ JSNumber.leadingBit u ≤ u :=
  foldl_leadingBit_le u _ 0 (by simpa using hu)

theorem foldl_leadingBit_lt (u n acc : Nat) (h : u < 2 ^ (acc + 2 ^ n)) :
    u < 2 ^ (((List.range n).reverse.map (fun i => 2 ^ i)).foldl
      (fun acc j => if 2 ^ (acc + j) ≤ u then acc + j else acc) acc + 1) := by
  induction n generalizing acc with
  | zero => simpa using h
  | succ n ih =>
    rw [List.range_succ, List.reverse_append, List.reverse_singleton, List.singleton_append,
      List.map_cons, List.foldl_cons]
    by_cases hj : 2 ^ (acc + 2 ^ n) ≤ u
    · rw [if_pos hj]
      apply ih
      have e : acc + 2 ^ n + 2 ^ n = acc + 2 ^ (n + 1) := by rw [pow_succ]; omega
      rw [e]; exact h
    · rw [if_neg hj]
      exact ih acc (not_le.mp hj)

/-- The binary search returns the position of the leading bit: `2^e ≤ u < 2^(e+1)`. -/
theorem leadingBit_spec (u : Nat) (hu : 0 < u) (hlt : u < 2 ^ 4096) :
    2 ^ JSNumber.leadingBit u ≤ u ∧ u < 2 ^ (JSNumber.leadingBit u + 1) := by
  refine ⟨two_pow_leadingBit_le u hu, ?_⟩
  have hl : [2048, 1024, 512, 256, 128, 64, 32, 16, 8, 4, 2, 1] =
      (List.range 12).reverse.map (fun i => 2 ^ i) := by decide
  unfold JSNumber.leadingBit
  rw [hl]
  exact foldl_leadingBit_lt u 12 0 (by simpa using hlt)

/-- The model of Number arithmetic reproduces known binary64 facts: the bit patterns of
0.1 and of 0.1 + 0.2, the largest finite Number and the overflow just above it, the
smallest subnormal and the tie below it, ties to even at `2^53`, and signed zeros. -/
theorem number_model_checks :
    parseFloat (JSValue.str "0.1") = JSNumber.fin ((0x1999999999999A * 2 ^ 1018 : Nat) : Int) ∧
    (parseFloat (JSValue.str "0.1")).add (parseFloat (JSValue.str "0.2")) =
      parseFloat (JSValue.str "0.30000000000000004") ∧
    (parseFloat (JSValue.str "0.1")).add (parseFloat (JSValue.str "0.2")) ≠
      parseFloat (JSValue.str "0.3") ∧
    parseFloat (JSValue.str "1.7976931348623157e308") =
      JSNumber.fin ((2 ^ 2098 - 2 ^ 2045 : Nat) : Int) ∧
    parseFloat (JSValue.str "1.7976931348623159e308") = JSNumber.posInf ∧
    parseFloat (JSValue.str "5e-324") = JSNumber.fin 1 ∧
    parseFloat (JSValue.str "2.4703282292062327e-324") = JSNumber.fin 0 ∧
    parseFloat (JSValue.str "9007199254740993") = JSNumber.ofNat 9007199254740992 ∧
    parseFloat (JSValue.str "9007199254740995") = JSNumber.ofNat 9007199254740996 ∧
    parseFloat (JSValue.str "-0") = JSNumber.negZero ∧
    parseFloat (JSValue.num JSNumber.negZero) = JSNumber.fin 0 ∧
    parseFloat (JSValue.str "  12.5e1px") = JSNumber.ofNat 125 ∧
    parseFloat (JSValue.str "abc") = JSNumber.nan ∧
    parseFloat (JSValue.str "") = JSNumber.nan ∧
    (JSNumber.ofNat 1).sub (JSNumber.ofNat 1) = JSNumber.fin 0 ∧
    JSNumber.posInf.sub JSNumber.posInf = JSNumber.nan := by
  decide

/-- A multiple `k * 2^s` with `k` below `2^53` has a 53-bit significand: it is not rounded. -/
theorem roundUnits_exact (k s : Nat) (hk : k < 2 ^ 53) :
    JSNumber.roundUnits (k * 2 ^ s) 1 = k * 2 ^ s := by
  have hdvd : 2 ^ (JSNumber.leadingBit (k * 2 ^ s / 1) - 52) ∣ k * 2 ^ s := by
    rw [Nat.div_one]
    rcases Nat.eq_zero_or_pos (k * 2 ^ s) with h0 | hpos
    · rw [h0]; exact dvd_zero _
    · have h1 := two_pow_leadingBit_le _ hpos
      have h2 : k * 2 ^ s < 2 ^ (53 + s) := by
        rw [pow_add]
        exact Nat.mul_lt_mul_of_pos_right hk (Nat.two_pow_pos _)
      have h3 : JSNumber.leadingBit (k * 2 ^ s) < 53 + s :=
        (Nat.pow_lt_pow_iff_right (by decide)).mp (lt_of_le_of_lt h1 h2)
      exact Dvd.dvd.mul_left (Nat.pow_dvd_pow 2 (by omega)) k
  unfold JSNumber.roundUnits
  simp only [Nat.one_mul]
  rw [Nat.mod_eq_zero_of_dvd hdvd, if_pos (by simp),
    Nat.div_mul_cancel hdvd]

theorem exact_lt_overflowBound (k s : Nat) (hk : k < 2 ^ 53) (hs : s ≤ 2045) :
    k * 2 ^ s < JSNumber.overflowBound := by
  have h1 : k * 2 ^ s < 2 ^ 53 * 2 ^ s :=
    Nat.mul_lt_mul_of_pos_right hk (Nat.two_pow_pos _)
  have h2 : 2 ^ 53 * 2 ^ s ≤ 2 ^ 53 * 2 ^ 2045 :=
    Nat.mul_le_mul_left _ (Nat.pow_le_pow_right (by decide) hs)
  have h3 : JSNumber.overflowBound = 2 ^ 53 * 2 ^ 2045 := by
    unfold JSNumber.overflowBound; rw [← pow_add]
  rw [h3]; exact lt_of_lt_of_le h1 h2

theorem ofSum_exact (k s : Nat) (hk : k < 2 ^ 53) (hs : s ≤ 2045) :
    JSNumber.ofSum ((k * 2 ^ s : Nat) : Int) = JSNumber.fin ((k * 2 ^ s : Nat) : Int) := by
  unfold JSNumber.ofSum
  by_cases h0 : ((k * 2 ^ s : Nat) : Int) = 0
  · rw [if_pos h0, h0]
  · rw [if_neg h0]
    have hneg : decide (((k * 2 ^ s : Nat) : Int) < 0) = false := by
      simp only [decide_eq_false_iff_not, not_lt]; exact Int.natCast_nonneg _
    have hn0 : k * 2 ^ s ≠ 0 := fun h => h0 (by rw [h]; rfl)
    rw [hneg, Int.natAbs_ofNat]
    unfold JSNumber.ofRatio
    simp only [roundUnits_exact k s hk]
    rw [if_neg (not_le.mpr (exact_lt_overflowBound k s hk hs)), if_neg hn0]
    simp

theorem add_exact (a b s : Nat) (h : a + b < 2 ^ 53) (hs : s ≤ 2045) :
    (JSNumber.fin ((a * 2 ^ s : Nat) : Int)).add (JSNumber.fin ((b * 2 ^ s : Nat) : Int)) =
      JSNumber.fin (((a + b) * 2 ^ s : Nat) : Int) := by
  have hz : ((a * 2 ^ s : Nat) : Int) + ((b * 2 ^ s : Nat) : Int) =
      (((a + b) * 2 ^ s : Nat) : Int) := by
    rw [← Int.natCast_add, Nat.add_mul]
  show JSNumber.ofSum _ = _
  rw [hz]; exact ofSum_exact _ s h hs

theorem sub_exact (a b s : Nat) (h : a + b < 2 ^ 53) (hs : s ≤ 2045) :
    (JSNumber.fin (((a + b) * 2 ^ s : Nat) : Int)).sub (JSNumber.fin ((b * 2 ^ s : Nat) : Int)) =
      JSNumber.fin ((a * 2 ^ s : Nat) : Int) := by
  unfold JSNumber.sub JSNumber.neg
  by_cases h0 : ((b * 2 ^ s : Nat) : Int) = 0
  · have hb : b = 0 := by
      have h1 : b * 2 ^ s = 0 := by exact_mod_cast h0
      rcases Nat.mul_eq_zero.mp h1 with hb | hp
      · exact hb
      · exact absurd hp (Nat.two_pow_pos _).ne'
    simp only [h0, if_true]
    subst hb
    rw [Nat.add_zero]; rfl
  · simp only [h0, if_false]
    have hz : (((a + b) * 2 ^ s : Nat) : Int) + -((b * 2 ^ s : Nat) : Int) =
        ((a * 2 ^ s : Nat) : Int) := by
      rw [Nat.add_mul, Int.natCast_add]; ring
    show JSNumber.ofSum _ = _
    rw [hz]; exact ofSum_exact _ s (by omega) hs

/-- Left-to-right summation of exact multiples is the multiple of the sum. -/
theorem foldl_add_exact (s : Nat) (hs : s ≤ 2045) (ks : List Nat) (a : Nat)
    (h : a + ks.sum < 2 ^ 53) :
    (ks.map (fun k => JSNumber.fin ((k * 2 ^ s : Nat) : Int))).foldl JSNumber.add
        (JSNumber.fin ((a * 2 ^ s : Nat) : Int)) =
      JSNumber.fin (((a + ks.sum) * 2 ^ s : Nat) : Int) := by
  induction ks generalizing a with
  | nil => simp
  | cons k rest ih =>
    rw [List.sum_cons] at h
    rw [List.map_cons, List.foldl_cons, add_exact a k s (by omega) hs, ih (a + k) (by omega),
      List.sum_cons, Nat.add_assoc]

theorem totalOf_stats (seq : List Transaction) (category : String) :
    (stats seq).totalOf category =
      if category ∈ knownCategories then some (jsSum (amountsOf category seq)) else none := by
  unfold Stats.totalOf knownCategories
  rw [stats_income, stats_expense, stats_savings, stats_owedToMe, stats_iOwe]
  by_cases h1 : category = "income"
  · subst h1; simp
  by_cases h2 : category = "expense"
  · subst h2; simp
  by_cases h3 : category = "savings"
  · subst h3; simp
  by_cases h4 : category = "lend"
  · subst h4; simp
  by_cases h5 : category = "owe"
  · subst h5; simp
  simp [h1, h2, h3, h4, h5]

theorem sum_filter_map_le (units : Transaction → Nat) (p : Transaction → Bool)
    (seq : List Transaction) : ((seq.filter p).map units).sum ≤ (seq.map units).sum := by
  induction seq with
  | nil => simp
  | cons t rest ih =>
    by_cases h : p t = true
    · simp [List.filter_cons, h, ih]
    · simp [List.filter_cons, h]; omega

/-- With exact amounts, a category's sum is the exact multiple of its units. -/
theorem jsSum_amountsOf_exact (s : Nat) (units : Transaction → Nat) (seq : List Transaction)
    (h : ExactAmounts s units seq) (category : String) :
    jsSum (amountsOf category seq) =
      JSNumber.fin (((((seq.filter (fun t => t.type = category)).map units).sum * 2 ^ s : Nat)
        : Int)) := by
  obtain ⟨hs, hval, hsum⟩ := h
  have hmap : amountsOf category seq =
      ((seq.filter (fun t => t.type = category)).map units).map
        (fun k => JSNumber.fin ((k * 2 ^ s : Nat) : Int)) := by
    unfold amountsOf
    rw [List.map_map]
    apply List.map_congr_left
    intro t ht
    exact hval t (List.mem_of_mem_filter ht)
  have hle := sum_filter_map_le units (fun t => decide (t.type = category)) seq
  have h0 : JSNumber.fin 0 = JSNumber.fin ((0 * 2 ^ s : Nat) : Int) := by simp
  unfold jsSum
  rw [hmap, h0, foldl_add_exact s hs _ 0 (by omega), Nat.zero_add]

theorem ExactAmounts.perm {s : Nat} {units : Transaction → Nat} {seq seq' : List Transaction}
    (h : ExactAmounts s units seq) (hp : seq.Perm seq') : ExactAmounts s units seq' := by
  obtain ⟨hs, hval, hsum⟩ := h
  refine ⟨hs, fun t ht => hval t (hp.mem_iff.mpr ht), ?_⟩
  rw [← (hp.map units).sum_eq]; exact hsum

theorem jsSum_amountsOf_perm (s : Nat) (units : Transaction → Nat)
    (seq seq' : List Transaction) (h : ExactAmounts s units seq) (hp : seq.Perm seq')
    (category : String) :
    jsSum (amountsOf category seq') = jsSum (amountsOf category seq) := by
  rw [jsSum_amountsOf_exact s units seq h, jsSum_amountsOf_exact s units seq' (h.perm hp),
    ((hp.filter _).map units).sum_eq]

theorem amountsOf_append (category : String) (l1 l2 : List Transaction) :
    amountsOf category (l1 ++ l2) = amountsOf category l1 ++ amountsOf category l2 := by
  simp [amountsOf]

theorem amountsOf_insert_other (category : String) (l1 l2 : List Transaction) (t : Transaction)
    (h : category ≠ t.type) :
    amountsOf category (l1 ++ t :: l2) = amountsOf category (l1 ++ l2) := by
  have ht : ¬ t.type = category := fun e => h e.symm
  simp [amountsOf, List.filter_cons, ht]

theorem ExactAmounts.remove {s : Nat} {units : Transaction → Nat} {l1 l2 : List Transaction}
    {t : Transaction} (h : ExactAmounts s units (l1 ++ t :: l2)) :
    ExactAmounts s units (l1 ++ l2) := by
  obtain ⟨hs, hval, hsum⟩ := h
  refine ⟨hs, fun x hx => hval x ?_, ?_⟩
  · rcases List.mem_append.mp hx with h1 | h2
    · exact List.mem_append.mpr (Or.inl h1)
    · exact List.mem_append.mpr (Or.inr (List.mem_cons_of_mem _ h2))
  · simp only [List.map_append, List.map_cons, List.sum_append, List.sum_cons] at hsum ⊢
    omega

/-! ## The claims on the aggregator -/

/-- C1, the claim as stated, fails: `tenthsReversed` is a permutation of `tenths`
(incomes 0.1, 0.2, 0.3), yet the income totals differ, `0.6000000000000001` against
`0.6`, because each `+=` rounds. -/
theorem stats_order_dependent :
    tenths.Perm tenthsReversed ∧
      (stats tenths).income = parseFloat (JSValue.str "0.6000000000000001") ∧
      (stats tenthsReversed).income = parseFloat (JSValue.str "0.6") ∧
      stats tenthsReversed ≠ stats tenths := by
  decide

/-- C1 (amended): for every sequence whose amounts add up without rounding (non-negative
multiples of one power of two, such as whole numbers, with fewer than `2^53` units in
all) and every permutation of it, the aggregator yields identical statistics. -/
theorem stats_perm_of_exact (s : Nat) (units : Transaction → Nat)
    (seq seq' : List Transaction) (h : ExactAmounts s units seq) (hp : seq.Perm seq') :
    stats seq' = stats seq := by
  rw [stats_eq_sums seq, stats_eq_sums seq']
  simp only [jsSum_amountsOf_perm s units seq seq' h hp]

/-- C1 (amended), at a concrete input: a ledger of whole amounts and a shuffle of it. -/
theorem stats_perm_of_exact_witness :
    ExactAmounts 1074 wholeUnits wholeLedger ∧ wholeLedger.Perm wholeLedgerShuffled ∧
      stats wholeLedgerShuffled = stats wholeLedger :=
  ⟨by decide, by decide,
    stats_perm_of_exact 1074 wholeUnits wholeLedger wholeLedgerShuffled (by decide) (by decide)⟩

/-- C2: each of the five totals is the sum (JavaScript `+`, in sequence order) of the
amounts of exactly the transactions of its category; transactions of any other category
contribute nothing (dropping them changes no total); the scenario list gives
100, 40, 10, 20, 5, also with a "refund" record added, and the empty list gives five zeros. -/
theorem stats_totals_are_category_sums (seq : List Transaction) :
    (stats seq).income = jsSum (amountsOf "income" seq) ∧
    (stats seq).expense = jsSum (amountsOf "expense" seq) ∧
    (stats seq).savings = jsSum (amountsOf "savings" seq) ∧
    (stats seq).owedToMe = jsSum (amountsOf "lend" seq) ∧
    (stats seq).iOwe = jsSum (amountsOf "owe" seq) ∧
    stats (seq.filter (fun t => decide (t.type ∈ knownCategories))) = stats seq ∧
    stats scenario =
      { income := JSNumber.ofNat 100, expense := JSNumber.ofNat 40,
        savings := JSNumber.ofNat 10, owedToMe := JSNumber.ofNat 20,
        iOwe := JSNumber.ofNat 5 } ∧
    stats (entry "refund" "7" :: scenario) = stats scenario ∧
    stats [] =
      { income := JSNumber.fin 0, expense := JSNumber.fin 0, savings := JSNumber.fin 0,
        owedToMe := JSNumber.fin 0, iOwe := JSNumber.fin 0 } := by
  refine ⟨stats_income seq, stats_expense seq, stats_savings seq, stats_owedToMe seq,
    stats_iOwe seq, ?_, by decide, by decide, by decide⟩
  rw [stats_eq_sums seq, stats_eq_sums (seq.filter _)]
  simp only [amountsOf_filter_known _ (by decide : "income" ∈ knownCategories),
    amountsOf_filter_known _ (by decide : "expense" ∈ knownCategories),
    amountsOf_filter_known _ (by decide : "savings" ∈ knownCategories),
    amountsOf_filter_known _ (by decide : "lend" ∈ knownCategories),
    amountsOf_filter_known _ (by decide : "owe" ∈ knownCategories)]

/-- C3: the net balance is `income - expense - savings` of the aggregator's output and the
net debt is `owedToMe - iOwe` (JavaScript `-`), hence the differences of the category
sums; the scenario list gives balance 50 and net debt 15, the empty list 0 and 0. -/
theorem balance_and_net_debt (seq : List Transaction) :
    currentBalance seq =
      ((stats seq).income.sub (stats seq).expense).sub (stats seq).savings ∧
    netDebt seq = (stats seq).owedToMe.sub (stats seq).iOwe ∧
    currentBalance seq =
      ((jsSum (amountsOf "income" seq)).sub (jsSum (amountsOf "expense" seq))).sub
        (jsSum (amountsOf "savings" seq)) ∧
    netDebt seq = (jsSum (amountsOf "lend" seq)).sub (jsSum (amountsOf "owe" seq)) ∧
    currentBalance scenario = JSNumber.ofNat 50 ∧ netDebt scenario = JSNumber.ofNat 15 ∧
    currentBalance [] = JSNumber.fin 0 ∧ netDebt [] = JSNumber.fin 0 := by
  refine ⟨rfl, rfl, ?_, ?_, by decide, by decide, by decide, by decide⟩
  · unfold currentBalance; rw [stats_income, stats_expense, stats_savings]
  · unfold netDebt; rw [stats_owedToMe, stats_iOwe]

/-- C4, the claim as stated, fails: with incomes 0.2 and 0.1 recorded (total
`0.30000000000000004`), adding an income of 0.3 in front gives the income total `0.6`,
while the old total plus 0.3 is `0.6000000000000001`; the new total minus the old one is
`0.29999999999999993`, not 0.3, and the new total minus 0.3 is not the old total. -/
theorem insert_not_exactly_amount :
    (stats [entry "income" "0.2", entry "income" "0.1"]).income =
      parseFloat (JSValue.str "0.30000000000000004") ∧
    (stats (entry "income" "0.3" :: [entry "income" "0.2", entry "income" "0.1"])).income =
      parseFloat (JSValue.str "0.6") ∧
    (stats [entry "income" "0.2", entry "income" "0.1"]).income.add
        (parseFloat (entry "income" "0.3").amount) =
      parseFloat (JSValue.str "0.6000000000000001") ∧
    (stats (entry "income" "0.3" :: [entry "income" "0.2", entry "income" "0.1"])).income ≠
      (stats [entry "income" "0.2", entry "income" "0.1"]).income.add
        (parseFloat (entry "income" "0.3").amount) ∧
    (stats (entry "income" "0.3" :: [entry "income" "0.2", entry "income" "0.1"])).income.sub
        (stats [entry "income" "0.2", entry "income" "0.1"]).income =
      parseFloat (JSValue.str "0.29999999999999993") ∧
    (stats (entry "income" "0.3" :: [entry "income" "0.2", entry "income" "0.1"])).income.sub
        (parseFloat (entry "income" "0.3").amount) ≠
      (stats [entry "income" "0.2", entry "income" "0.1"]).income := by
  decide

/-- C4 (amended): for a transaction `t` of a known category placed anywhere in a sequence,
the totals of the other categories are the same with and without `t`; when `t` is the
last element its category's total is the previous total plus its amount (JavaScript `+`,
once); and when the amounts add up without rounding this holds at every position, and
removing `t` lowers its category's total by exactly its amount. -/
theorem insert_changes_one_total (l1 l2 : List Transaction) (t : Transaction)
    (hk : t.type ∈ knownCategories) :
    (∀ c, c ≠ t.type → (stats (l1 ++ t :: l2)).totalOf c = (stats (l1 ++ l2)).totalOf c) ∧
    (∃ old new, (stats l1).totalOf t.type = some old ∧
      (stats (l1 ++ [t])).totalOf t.type = some new ∧
      new = old.add (parseFloat t.amount)) ∧
    (∀ s units, ExactAmounts s units (l1 ++ t :: l2) →
      ∃ old new, (stats (l1 ++ l2)).totalOf t.type = some old ∧
        (stats (l1 ++ t :: l2)).totalOf t.type = some new ∧
        new = old.add (parseFloat t.amount) ∧ old = new.sub (parseFloat t.amount)) := by
  refine ⟨?_, ?_, ?_⟩
  · intro c hc
    rw [totalOf_stats, totalOf_stats, amountsOf_insert_other c l1 l2 t hc]
  · refine ⟨jsSum (amountsOf t.type l1), jsSum (amountsOf t.type (l1 ++ [t])), ?_, ?_, ?_⟩
    · rw [totalOf_stats, if_pos hk]
    · rw [totalOf_stats, if_pos hk]
    · simp [jsSum, amountsOf, List.filter_cons]
  · intro s units h
    refine ⟨jsSum (amountsOf t.type (l1 ++ l2)), jsSum (amountsOf t.type (l1 ++ t :: l2)),
      ?_, ?_, ?_⟩
    · rw [totalOf_stats, if_pos hk]
    · rw [totalOf_stats, if_pos hk]
    · have hval : parseFloat t.amount = JSNumber.fin ((units t * 2 ^ s : Nat) : Int) :=
        h.2.1 t (by simp)
      have hsum : (((l1 ++ t :: l2).filter (fun x => x.type = t.type)).map units).sum =
          (((l1 ++ l2).filter (fun x => x.type = t.type)).map units).sum + units t := by
        simp [List.filter_cons]; omega
      have hle := sum_filter_map_le units (fun x => decide (x.type = t.type)) (l1 ++ t :: l2)
      have hlt : (((l1 ++ l2).filter (fun x => x.type = t.type)).map units).sum + units t
          < 2 ^ 53 := by
        have := h.2.2; omega
      rw [jsSum_amountsOf_exact s units _ h, jsSum_amountsOf_exact s units _ h.remove, hval,
        hsum]
      exact ⟨(add_exact _ _ s hlt h.1).symm, (sub_exact _ _ s hlt h.1).symm⟩

/-- C4 (amended), at a concrete input: an income of 2 placed in the middle of a ledger of
whole amounts raises the income total from 4 to 6. -/
theorem insert_changes_one_total_witness :
    "income" ∈ knownCategories ∧
    ExactAmounts 1074 wholeUnits
      ([entry "income" "1"] ++ entry "income" "2" :: [entry "expense" "7", entry "income" "3"]) ∧
    ∃ old new,
      (stats ([entry "income" "1"] ++ [entry "expense" "7", entry "income" "3"])).totalOf
        (entry "income" "2").type = some old ∧
      (stats ([entry "income" "1"] ++ entry "income" "2" ::
        [entry "expense" "7", entry "income" "3"])).totalOf (entry "income" "2").type
          = some new ∧
      new = old.add (parseFloat (entry "income" "2").amount) ∧
      old = new.sub (parseFloat (entry "income" "2").amount) :=
  ⟨by decide, by decide,
    (insert_changes_one_total [entry "income" "1"] [entry "expense" "7", entry "income" "3"]
      (entry "income" "2") (by decide)).2.2 1074 wholeUnits (by decide)⟩

/-! ## The snapshot sort -/

theorem secondsOrZero_some (x : Transaction) (ts : Timestamp) (h : x.createdAt = some ts) :
    secondsOrZero x = ts.seconds := by
  unfold secondsOrZero
  rw [h]
  by_cases h0 : ts.seconds = 0
  · simp [h0]
  · simp [h0]

theorem secondsOrZero_none (x : Transaction) (h : x.createdAt = none) :
    secondsOrZero x = 0 := by
  unfold secondsOrZero; rw [h]

theorem compareCreated_le_iff (a b : Transaction) :
    compareCreated a b ≤ 0 ↔ secondsOrZero b ≤ secondsOrZero a := by
  unfold compareCreated; omega

/-- Inserting `a` keeps, for every key `k`, the records of key `k` in the order "`a`
first, then those already there": the insertion passes only records of a larger key. -/
theorem filter_orderedInsert_key (k : Int) (a : Transaction) (l : List Transaction) :
    (l.orderedInsert (fun a b => compareCreated a b ≤ 0) a).filter
        (fun x => decide (secondsOrZero x = k)) =
      (a :: l).filter (fun x => decide (secondsOrZero x = k)) := by
  induction l with
  | nil => simp
  | cons b rest ih =>
    by_cases hr : compareCreated a b ≤ 0
    · simp [List.orderedInsert, hr]
    · have hlt : secondsOrZero a < secondsOrZero b := by
        rw [compareCreated_le_iff] at hr; omega
      rw [List.orderedInsert, if_neg hr, List.filter_cons, ih]
      by_cases ha : secondsOrZero a = k
      · have hb : ¬ secondsOrZero b = k := by omega
        simp [List.filter_cons, ha, hb]
      · simp [List.filter_cons, ha]

theorem filter_arraySort_key (k : Int) (l : List Transaction) :
    (arraySort compareCreated l).filter (fun x => decide (secondsOrZero x = k)) =
      l.filter (fun x => decide (secondsOrZero x = k)) := by
  unfold arraySort
  induction l with
  | nil => simp
  | cons a rest ih =>
    rw [List.insertionSort, filter_orderedInsert_key, List.filter_cons, List.filter_cons, ih]

theorem arraySort_pairwise (l : List Transaction) :
    (arraySort compareCreated l).Pairwise
      (fun x y => secondsOrZero y ≤ secondsOrZero x) := by
  haveI : IsTotal Transaction (fun a b => compareCreated a b ≤ 0) :=
    ⟨fun a b => by simp only [compareCreated_le_iff]; omega⟩
  haveI : IsTrans Transaction (fun a b => compareCreated a b ≤ 0) :=
    ⟨fun a b c => by simp only [compareCreated_le_iff]; omega⟩
  have h := List.sorted_insertionSort (fun a b => compareCreated a b ≤ 0) l
  exact List.Pairwise.imp (fun {a b} hab => (compareCreated_le_iff a b).mp hab) h

theorem arraySort_perm {α : Type} (cmp : α → α → Int) (l : List α) :
    (arraySort cmp l).Perm l :=
  List.perm_insertionSort _ l

theorem filter_none_eq (l : List Transaction) :
    l.filter (fun x => decide (x.createdAt = none)) =
      (l.filter (fun x => decide (secondsOrZero x = 0))).filter
        (fun x => decide (x.createdAt = none)) := by
  rw [List.filter_filter]
  apply List.filter_congr
  intro x _
  by_cases h : x.createdAt = none
  · simp [h, secondsOrZero_none x h]
  · simp [h]

/-! ## The claims on the snapshot callback -/

/-- C5: the published sequence is meant to be in descending order of creation instant
(the comment on the sort reads "Sort by date desc"), but the comparator reads only
`createdAt.seconds`: two documents created within the same second, the earlier one first,
are published in that order, the earlier creation instant first. -/
theorem publish_not_descending_by_instant :
    publish sameSecondDocs = sameSecondDocs.map toRecord ∧
      ¬ DescendingByInstant (publish sameSecondDocs) := by
  have hp : publish sameSecondDocs = sameSecondDocs.map toRecord := by decide
  refine ⟨hp, ?_⟩
  rw [hp]
  intro h
  have h2 := List.rel_of_pairwise_cons h (List.mem_cons_self _ _)
    { seconds := 100, nanoseconds := 0 } { seconds := 100, nanoseconds := 500000000 } rfl rfl
  revert h2
  decide

/-- What the snapshot sort does establish: the published sequence is a permutation of the
snapshot's records, one local record per document, in descending order of the
whole-seconds key `createdAt?.seconds || 0`, and for every key the records of that key
keep their arrival order. -/
theorem publish_sorted_by_seconds (docs : List RemoteDoc) :
    (publish docs).Perm (docs.map toRecord) ∧
    (publish docs).length = docs.length ∧
    (publish docs).Pairwise (fun x y => secondsOrZero y ≤ secondsOrZero x) ∧
    ∀ k : Int, (publish docs).filter (fun x => decide (secondsOrZero x = k)) =
      (docs.map toRecord).filter (fun x => decide (secondsOrZero x = k)) := by
  refine ⟨arraySort_perm _ _, ?_, arraySort_pairwise _, fun k => filter_arraySort_key k _⟩
  rw [publish, (arraySort_perm compareCreated (docs.map toRecord)).length_eq, List.length_map]

/-- C10: a record whose `createdAt` is missing or `null`, or whose seconds are `0`, is
compared with the key `0`, and any other record with the key `createdAt.seconds` alone, so
records of the same second compare as tied whatever their nanoseconds; in the published
sequence every record without seconds comes after every record with positive seconds;
the records lacking `createdAt` keep their arrival order, and so do the records of any
one second. -/
theorem missing_createdAt_sorts_last (docs : List RemoteDoc) :
    (∀ x, noSeconds x = true → secondsOrZero x = 0) ∧
    (∀ x ts, x.createdAt = some ts → secondsOrZero x = ts.seconds) ∧
    (∀ a b ta tb, a.createdAt = some ta → b.createdAt = some tb →
      ta.seconds = tb.seconds → compareCreated a b = 0) ∧
    (∀ (i j : Nat) (a b : Transaction), (publish docs)[i]? = some a →
      (publish docs)[j]? = some b → noSeconds a = true → positiveSeconds b = true → j < i) ∧
    (publish docs).filter (fun x => decide (x.createdAt = none)) =
      (docs.map toRecord).filter (fun x => decide (x.createdAt = none)) ∧
    ∀ k : Int, (publish docs).filter (fun x => decide (secondsOrZero x = k)) =
      (docs.map toRecord).filter (fun x => decide (secondsOrZero x = k)) := by
  have hzero : ∀ x, noSeconds x = true → secondsOrZero x = 0 := by
    intro x hx
    unfold noSeconds at hx
    cases hc : x.createdAt with
    | none => exact secondsOrZero_none x hc
    | some ts =>
      rw [hc] at hx
      rw [secondsOrZero_some x ts hc]
      simpa using hx
  have hpos : ∀ x, positiveSeconds x = true → 0 < secondsOrZero x := by
    intro x hx
    unfold positiveSeconds at hx
    cases hc : x.createdAt with
    | none => rw [hc] at hx; simp at hx
    | some ts =>
      rw [hc] at hx
      rw [secondsOrZero_some x ts hc]
      simpa using hx
  refine ⟨hzero, secondsOrZero_some, ?_, ?_, ?_, fun k => filter_arraySort_key k _⟩
  · intro a b ta tb ha hb hs
    unfold compareCreated
    rw [secondsOrZero_some a ta ha, secondsOrZero_some b tb hb, hs]; omega
  · intro i j a b hi hj ha hb
    by_contra hji
    have hle : i ≤ j := by omega
    obtain ⟨hil, hia⟩ := List.getElem?_eq_some_iff.mp hi
    obtain ⟨hjl, hjb⟩ := List.getElem?_eq_some_iff.mp hj
    have h0 := hzero a ha
    have h1 := hpos b hb
    rcases Nat.eq_or_lt_of_le hle with heq | hlt
    · subst heq
      rw [hia] at hjb
      subst hjb
      omega
    · have hsorted := List.pairwise_iff_getElem.mp (arraySort_pairwise (docs.map toRecord))
        i j hil hjl hlt
      have hsorted2 : secondsOrZero (publish docs)[j] ≤ secondsOrZero (publish docs)[i] :=
        hsorted
      rw [hia, hjb] at hsorted2
      omega
  · rw [filter_none_eq (publish docs), filter_none_eq (docs.map toRecord), publish,
      filter_arraySort_key]

/-! ## The claims on the handlers -/

/-- C6, the claim as stated, fails: with a user signed in, the label "x" and the amount
input "-5" (or "0"), `addTransaction` issues `addDoc` and records the amount `-5`
(or `0`), which is not a positive magnitude. -/
theorem addTransaction_writes_negative :
    (addTransaction negativeInput "" "" acceptAll).calls =
      [RemoteCall.addDoc "u" { amount := (JSNumber.ofNat 5).neg, type := "expense",
                               label := "x", date := "", timestamp := "" }] ∧
    (JSNumber.ofNat 5).neg.isPositive = false ∧
    (addTransaction { negativeInput with amount := "0" } "" "" acceptAll).calls =
      [RemoteCall.addDoc "u" { amount := JSNumber.fin 0, type := "expense",
                               label := "x", date := "", timestamp := "" }] ∧
    (JSNumber.fin 0).isPositive = false := by
  decide

/-- C6 (amended): `addTransaction` issues the remote write exactly when the amount input
is a non-empty string, the label is non-empty and a user is signed in; it issues at most
one write, to that user's collection, recording `parseFloat(amount)` as it comes, with the
chosen type and the label. -/
theorem addTransaction_writes_iff (s : AppState) (date timestamp : String)
    (remote : RemoteCall → Except String Unit) :
    ((addTransaction s date timestamp remote).calls ≠ [] ↔
      s.amount ≠ "" ∧ s.label ≠ "" ∧ s.user ≠ none) ∧
    (addTransaction s date timestamp remote).calls.length ≤ 1 ∧
    ∀ call ∈ (addTransaction s date timestamp remote).calls,
      ∃ user, s.user = some user ∧
        call = RemoteCall.addDoc user.uid
          { amount := parseFloat (JSValue.str s.amount), type := s.inputType,
            label := s.label, date := date, timestamp := timestamp } := by
  unfold addTransaction
  by_cases hg : s.amount = "" ∨ s.label = "" ∨ s.user = none
  · rw [if_pos hg]
    refine ⟨⟨fun h => absurd rfl h, fun h => ?_⟩, by simp, by simp⟩
    rcases hg with h1 | h2 | h3
    · exact absurd h1 h.1
    · exact absurd h2 h.2.1
    · exact absurd h3 h.2.2
  · rw [if_neg hg]
    have hg2 : s.amount ≠ "" ∧ s.label ≠ "" ∧ s.user ≠ none := by
      refine ⟨fun h => hg (Or.inl h), fun h => hg (Or.inr (Or.inl h)),
        fun h => hg (Or.inr (Or.inr h))⟩
    cases hu : s.user with
    | none => exact absurd hu hg2.2.2
    | some user =>
      cases hr : remote (RemoteCall.addDoc user.uid
          { amount := parseFloat (JSValue.str s.amount), type := s.inputType,
            label := s.label, date := date, timestamp := timestamp }) with
      | ok v => simp [hr, hg2.1, hg2.2.1]
      | error err => simp [hr, hg2.1, hg2.2.1]

/-- C8: `deleteTransaction` issues `deleteDoc` exactly when a user is signed in and the
confirmation was given, at most once and for the given identifier in that user's
collection; whatever the store answers, no rejection reaches the caller and the state is
left unchanged. -/
theorem deleteTransaction_guarded (s : AppState) (id : String) (confirmed : Bool)
    (remote : RemoteCall → Except String Unit) :
    ((deleteTransaction s id confirmed remote).calls ≠ [] ↔
      s.user ≠ none ∧ confirmed = true) ∧
    (deleteTransaction s id confirmed remote).calls.length ≤ 1 ∧
    (∀ call ∈ (deleteTransaction s id confirmed remote).calls,
      ∃ user, s.user = some user ∧ call = RemoteCall.deleteDoc user.uid id) ∧
    (deleteTransaction s id confirmed remote).result = Except.ok () ∧
    (deleteTransaction s id confirmed remote).state = s := by
  unfold deleteTransaction
  by_cases hg : s.user = none ∨ confirmed = false
  · rw [if_pos hg]
    refine ⟨⟨fun h => absurd rfl h, fun h => ?_⟩, by simp, by simp, rfl, rfl⟩
    rcases hg with h1 | h2
    · exact absurd h1 h.1
    · rw [h.2] at h2; exact absurd h2 (by decide)
  · rw [if_neg hg]
    have hg2 : s.user ≠ none ∧ confirmed = true := by
      refine ⟨fun h => hg (Or.inl h), ?_⟩
      cases confirmed with
      | true => rfl
      | false => exact absurd (Or.inr rfl) hg
    cases hu : s.user with
    | none => exact absurd hu hg2.1
    | some user =>
      cases hr : remote (RemoteCall.deleteDoc user.uid id) with
      | ok v => simp [hr, hg2.2]
      | error err => simp [hr, hg2.2]

/-- C9: for a valid submission (amount and label non-empty, a user signed in)
`addTransaction` issues one write and no rejection reaches the caller; if the write
succeeds the amount and label inputs are reset to empty and the form is closed, the rest
of the state staying as it was; if it fails the whole state, the amount, label, form-open
flag and transaction list included, is left as it was and the error is logged. -/
theorem addTransaction_outcome (s : AppState) (date timestamp : String)
    (remote : RemoteCall → Except String Unit) (user : User)
    (hu : s.user = some user) (ha : s.amount ≠ "") (hl : s.label ≠ "") :
    ∃ call, (addTransaction s date timestamp remote).calls = [call] ∧
      (addTransaction s date timestamp remote).result = Except.ok () ∧
      (remote call = Except.ok () →
        (addTransaction s date timestamp remote).state =
          { s with amount := "", label := "", isInputOpen := false }) ∧
      (∀ err, remote call = Except.error err →
        (addTransaction s date timestamp remote).state = s ∧
        (addTransaction s date timestamp remote).logged = ["Error adding doc: " ++ err]) := by
  refine ⟨RemoteCall.addDoc user.uid
    { amount := parseFloat (JSValue.str s.amount), type := s.inputType,
      label := s.label, date := date, timestamp := timestamp }, ?_⟩
  unfold addTransaction
  have hg : ¬ (s.amount = "" ∨ s.label = "" ∨ s.user = none) := by
    rintro (h | h | h)
    · exact ha h
    · exact hl h
    · rw [hu] at h; exact absurd h (by simp)
  rw [if_neg hg]
  cases hr : remote (RemoteCall.addDoc user.uid
      { amount := parseFloat (JSValue.str s.amount), type := s.inputType,
        label := s.label, date := date, timestamp := timestamp }) with
  | ok v => simp [hu, hr]
  | error err => simp [hu, hr]

/-- C9, at a concrete input: the filled form submitted to a store that rejects the write. -/
theorem addTransaction_outcome_witness :
    filledInput.user = some { uid := "u" } ∧ filledInput.amount ≠ "" ∧
    filledInput.label ≠ "" ∧
    ∃ call, (addTransaction filledInput "5 Nov" "09:30" rejectAll).calls = [call] ∧
      (addTransaction filledInput "5 Nov" "09:30" rejectAll).result = Except.ok () ∧
      (rejectAll call = Except.ok () →
        (addTransaction filledInput "5 Nov" "09:30" rejectAll).state =
          { filledInput with amount := "", label := "", isInputOpen := false }) ∧
      (∀ err, rejectAll call = Except.error err →
        (addTransaction filledInput "5 Nov" "09:30" rejectAll).state = filledInput ∧
        (addTransaction filledInput "5 Nov" "09:30" rejectAll).logged =
          ["Error adding doc: " ++ err]) :=
  ⟨rfl, by decide, by decide,
    addTransaction_outcome filledInput "5 Nov" "09:30" rejectAll { uid := "u" } rfl
      (by decide) (by decide)⟩

/-! ## The session lifecycle -/

theorem addTransaction_state_session (s : AppState) (date timestamp : String)
    (remote : RemoteCall → Except String Unit) :
    (addTransaction s date timestamp remote).state.user = s.user ∧
    (addTransaction s date timestamp remote).state.subscription = s.subscription ∧
    (addTransaction s date timestamp remote).state.transactions = s.transactions := by
  unfold addTransaction
  by_cases hg : s.amount = "" ∨ s.label = "" ∨ s.user = none
  · rw [if_pos hg]; exact ⟨rfl, rfl, rfl⟩
  · rw [if_neg hg]
    cases hu : s.user with
    | none => simp [hu]
    | some user =>
      cases hr : remote (RemoteCall.addDoc user.uid
          { amount := parseFloat (JSValue.str s.amount), type := s.inputType,
            label := s.label, date := date, timestamp := timestamp }) with
      | ok v => simp [hr, hu]
      | error err => simp [hr, hu]

theorem deleteTransaction_state (s : AppState) (id : String) (confirmed : Bool)
    (remote : RemoteCall → Except String Unit) :
    (deleteTransaction s id confirmed remote).state = s := by
  unfold deleteTransaction
  by_cases hg : s.user = none ∨ confirmed = false
  · rw [if_pos hg]
  · rw [if_neg hg]
    cases hu : s.user with
    | none => simp
    | some user =>
      cases hr : remote (RemoteCall.deleteDoc user.uid id) with
      | ok v => simp [hr]
      | error err => simp [hr]

/-- The listener is attached to the collection of the current user, and to nothing when
there is none. -/
theorem step_subscription (s : AppState) (e : Event)
    (h : s.subscription = s.user.map User.uid) :
    (step s e).subscription = (step s e).user.map User.uid := by
  cases e with
  | authStateChanged currentUser =>
    simp only [step, onAuthStateChanged]
    by_cases hc : currentUser = s.user
    · rw [if_pos hc]; simp [h, hc]
    · rw [if_neg hc]
      cases currentUser with
      | none => simp
      | some user => simp
  | snapshot docs =>
    simp only [step]
    by_cases hs : s.subscription = none
    · rw [if_pos hs]; exact h
    · rw [if_neg hs]; exact h
  | snapshotError error =>
    simp only [step]
    by_cases hs : s.subscription = none
    · rw [if_pos hs]; exact h
    · rw [if_neg hs]; exact h
  | quickButton type => exact h
  | changeAmount value => exact h
  | changeLabel value => exact h
  | cancel => exact h
  | submit date timestamp remote =>
    simp only [step]
    have hs := addTransaction_state_session s date timestamp remote
    rw [hs.1, hs.2.1]; exact h
  | delete id confirmed remote =>
    simp only [step]
    rw [(deleteTransaction_state s id confirmed remote)]; exact h

theorem foldl_step_subscription (events : List Event) (s : AppState)
    (h : s.subscription = s.user.map User.uid) :
    (events.foldl step s).subscription = (events.foldl step s).user.map User.uid := by
  induction events generalizing s with
  | nil => exact h
  | cons e rest ih => exact ih (step s e) (step_subscription s e h)

theorem reachable_subscription (s : AppState) (h : Reachable s) :
    s.subscription = s.user.map User.uid := by
  obtain ⟨events, rfl⟩ := h
  exact foldl_step_subscription events initialState rfl

/-- C7, the claim as stated, fails: after sign-in, a snapshot of two documents and the
loss of the session, there is no active user and `transactions` still holds the two
records. -/
theorem session_loss_keeps_transactions :
    Reachable (run sessionLost) ∧ (run sessionLost).user = none ∧
    (run sessionLost).transactions = sameSecondDocs.map toRecord ∧
    (run sessionLost).transactions ≠ [] :=
  ⟨⟨sessionLost, rfl⟩, by decide, by decide, by decide⟩

/-- C7 (amended): on session loss the subscription is torn down and the published
sequence is left as it was: in every reachable state with no active user no listener is
attached and a snapshot changes nothing, and the step from any reachable state to "no
user" detaches the listener and keeps `transactions`. -/
theorem session_loss_unsubscribes (s : AppState) (h : Reachable s) :
    (s.user = none → s.subscription = none) ∧
    (∀ docs, s.user = none → step s (Event.snapshot docs) = s) ∧
    (step s (Event.authStateChanged none)).user = none ∧
    (step s (Event.authStateChanged none)).subscription = none ∧
    (step s (Event.authStateChanged none)).transactions = s.transactions := by
  have hinv := reachable_subscription s h
  have hnone : s.user = none → s.subscription = none := by
    intro hu; rw [hinv, hu]; rfl
  refine ⟨hnone, ?_, ?_, ?_, ?_⟩
  · intro docs hu
    simp only [step]
    rw [if_pos (hnone hu)]
  · simp only [step, onAuthStateChanged]
    by_cases hc : none = s.user
    · rw [if_pos hc]
    · rw [if_neg hc]
  · simp only [step, onAuthStateChanged]
    by_cases hc : none = s.user
    · rw [if_pos hc]; exact hnone hc.symm
    · rw [if_neg hc]
  · simp only [step, onAuthStateChanged]
    by_cases hc : none = s.user
    · rw [if_pos hc]
    · rw [if_neg hc]

/-- C7 (amended), at a concrete input: the state reached by signing in, receiving a
snapshot and losing the session. -/
theorem session_loss_unsubscribes_witness :
    Reachable (run sessionLost) ∧
    ((run sessionLost).user = none → (run sessionLost).subscription = none) ∧
    (∀ docs, (run sessionLost).user = none →
      step (run sessionLost) (Event.snapshot docs) = run sessionLost) ∧
    (step (run sessionLost) (Event.authStateChanged none)).user = none ∧
    (step (run sessionLost) (Event.authStateChanged none)).subscription = none ∧
    (step (run sessionLost) (Event.authStateChanged none)).transactions =
      (run sessionLost).transactions :=
  ⟨⟨sessionLost, rfl⟩, session_loss_unsubscribes (run sessionLost) ⟨sessionLost, rfl⟩⟩

end Ledger
